import Mathlib

/-!
Verification of the Saham Bank (Morocco) store-locator spider
(`locations/saham_bank_ma.py`).

The development shallowly embeds the spider's pure data path:

* `JVal` models Python/JSON values (`None`, booleans, ints, floats as exact
  rationals, strings, lists, dicts as association lists).
* `pyTruthy`, `pyOr`, `pyStr`, `pyFloat` model the Python primitives the
  spider relies on (`or`-chains, truthiness, `str()`, `float()`).
* `reSubSaham` / `reSubAgence` model the two concrete `re.sub` calls of
  `_dict_to_item` (global leftmost substitution with word boundaries,
  case-insensitive literals, `\s` classes and the literal separator class).
* `jsonParse` models `json.loads` on the JSON fragment the page payloads use.
* `dictToItem` embeds `_dict_to_item`; a record whose display name is a
  truthy non-string would make the Python code raise `TypeError` inside
  `re.sub`, which the embedding models as `Except.error ()`.
* `emitItems` embeds the dedup-and-yield loop of `parse_locator`;
  `extractLocationsFromBlob` embeds `_extract_locations_from_blob`;
  `parseLocator` embeds the extraction pipeline over the regex-captured
  candidate payloads of each script block.
-/

namespace SahamBank

/-- A Python float: finite values are modelled as exact rationals (numbers
produced by parsing short decimal strings are represented exactly, which
matches CPython's shortest round-trip `repr` on such inputs), and the
special values `float("inf")`, `float("-inf")` and `float("nan")` are
explicit constructors. -/
inductive PyFloat where
  | finite (q : Rat) : PyFloat
  | inf (neg : Bool) : PyFloat
  | nan : PyFloat
  deriving DecidableEq

/-- Python/JSON values. -/
inductive JVal where
  | null : JVal
  | bool (b : Bool) : JVal
  | int (n : Int) : JVal
  | float (x : PyFloat) : JVal
  | str (s : String) : JVal
  | arr (xs : List JVal) : JVal
  | obj (kvs : List (String × JVal)) : JVal

mutual

/-- Structural equality test for `JVal` (used to derive decidable equality;
the nested lists prevent automatic derivation). -/
def JVal.beq : JVal → JVal → Bool
  | .null, .null => true
  | .bool a, .bool b => a == b
  | .int a, .int b => a == b
  | .float a, .float b => a == b
  | .str a, .str b => a == b
  | .arr xs, .arr ys => JVal.beqList xs ys
  | .obj xs, .obj ys => JVal.beqObj xs ys
  | _, _ => false

def JVal.beqList : List JVal → List JVal → Bool
  | [], [] => true
  | x :: xs, y :: ys => JVal.beq x y && JVal.beqList xs ys
  | _, _ => false

def JVal.beqObj : List (String × JVal) → List (String × JVal) → Bool
  | [], [] => true
  | (k1, v1) :: xs, (k2, v2) :: ys => k1 == k2 && JVal.beq v1 v2 && JVal.beqObj xs ys
  | _, _ => false

end

mutual

theorem JVal.beq_iff : ∀ a b : JVal, JVal.beq a b = true ↔ a = b
  | .null, b => by cases b <;> simp [JVal.beq]
  | .bool a, b => by cases b <;> simp [JVal.beq]
  | .int a, b => by cases b <;> simp [JVal.beq]
  | .float a, b => by cases b <;> simp [JVal.beq]
  | .str a, b => by cases b <;> simp [JVal.beq]
  | .arr xs, b => by
      cases b <;> simp [JVal.beq]
      exact JVal.beqList_iff xs _
  | .obj xs, b => by
      cases b <;> simp [JVal.beq]
      exact JVal.beqObj_iff xs _

theorem JVal.beqList_iff : ∀ xs ys : List JVal, JVal.beqList xs ys = true ↔ xs = ys
  | [], ys => by cases ys <;> simp [JVal.beqList]
  | x :: xs, ys => by
      cases ys with
      | nil => simp [JVal.beqList]
      | cons y ys =>
          simp [JVal.beqList, Bool.and_eq_true, JVal.beq_iff x y, JVal.beqList_iff xs ys]

theorem JVal.beqObj_iff : ∀ xs ys : List (String × JVal), JVal.beqObj xs ys = true ↔ xs = ys
  | [], ys => by cases ys <;> simp [JVal.beqObj]
  | (k, v) :: xs, ys => by
      cases ys with
      | nil => simp [JVal.beqObj]
      | cons y ys =>
          obtain ⟨k2, v2⟩ := y
          simp [JVal.beqObj, Bool.and_eq_true, JVal.beq_iff v v2, JVal.beqObj_iff xs ys,
            and_assoc]

end

instance : DecidableEq JVal := fun a b => decidable_of_iff _ (JVal.beq_iff a b)

/-- A raw record / Python dict, as an association list with distinct keys
(the order is the dict's insertion order). -/
abbrev RawDict := List (String × JVal)

/-- First value bound to `k`, if the key is present. -/
def rawLookup (raw : RawDict) (k : String) : Option JVal :=
  match raw with
  | [] => Option.none
  | (k1, v) :: rest => if k1 = k then some v else rawLookup rest k

/-- Python `raw.get(k)`: `None` when the key is absent. -/
def rawGet (raw : RawDict) (k : String) : JVal :=
  (rawLookup raw k).getD .null

/-- Python truthiness of a value (a string is truthy when non-empty; of
the floats only `0.0` is falsy — infinities and `nan` are truthy). -/
def pyTruthy : JVal → Bool
  | .null => false
  | .bool b => b
  | .int n => n != 0
  | .float (.finite q) => q != 0
  | .float _ => true
  | .str s => !s.data.isEmpty
  | .arr xs => !xs.isEmpty
  | .obj kvs => !kvs.isEmpty

/-- Python `a or b`: `a` if truthy, else `b`. -/
def pyOr (a b : JVal) : JVal :=
  if pyTruthy a then a else b

/-- The whitespace characters of Python's `\s` class and `str.strip()`
(ASCII part; the inputs of interest contain no exotic Unicode spaces). -/
def isSpaceChar (c : Char) : Bool :=
  c = ' ' || c = '\t' || c = '\n' || c = '\x0d' || c = '\x0b' || c = '\x0c'

/-- Word characters for `\b`/`\w` (ASCII part of Python's Unicode `\w`;
the names the spider processes are ASCII around the boundaries in play). -/
def isWordChar (c : Char) : Bool :=
  c.isAlpha || c.isDigit || c = '_'

/-- Strip the characters selected by `p` from both ends (Python
`str.strip()` family). -/
def stripEnds (p : Char → Bool) (cs : List Char) : List Char :=
  ((cs.dropWhile p).reverse.dropWhile p).reverse

/-- Python `str.strip()` on a string. -/
def pyStripWs (s : String) : String :=
  ⟨stripEnds isSpaceChar s.data⟩

/-- Python `str.strip("-")` on a string. -/
def stripDashes (s : String) : String :=
  ⟨stripEnds (· = '-') s.data⟩

/-- Match a literal word (given in lowercase) case-insensitively at the
head of the input; returns the rest on success. -/
def eatLitCI : List Char → List Char → Option (List Char)
  | [], cs => some cs
  | _ :: _, [] => Option.none
  | p :: ps, c :: cs => if c.toLower = p then eatLitCI ps cs else Option.none

/-- The separator class `[-â€“:]` of the brand-stripping pattern: a dash,
the three bytes of a mis-decoded en dash, and a colon (taken verbatim from
the source). -/
def isSepChar (c : Char) : Bool :=
  c = '-' || c = 'â' || c = '€' || c = '“' || c = ':'

/-- One match attempt of `(?i)\b(saham\s*bank)\b\s*[-â€“:]\s*` at the head
of the input.  `prevIsWord` tells whether the previous character of the
subject is a word character (for the leading `\b`).  Returns the input
after the match.  The quantified classes are disjoint from what follows
them, so greedy matching needs no backtracking. -/
def sahamMatch (prevIsWord : Bool) (cs : List Char) : Option (List Char) :=
  if prevIsWord then Option.none
  else
    match eatLitCI "saham".data cs with
    | Option.none => Option.none
    | some cs1 =>
      match eatLitCI "bank".data (cs1.dropWhile isSpaceChar) with
      | Option.none => Option.none
      | some cs2 =>
        -- trailing \b after "bank"
        if (match cs2 with | [] => true | c :: _ => !isWordChar c) then
          match cs2.dropWhile isSpaceChar with
          | c :: cs3 => if isSepChar c then some (cs3.dropWhile isSpaceChar) else Option.none
          | [] => Option.none
        else Option.none

/-- One match attempt of `(?i)\bagence\s+` at the head of the input. -/
def agenceMatch (prevIsWord : Bool) (cs : List Char) : Option (List Char) :=
  if prevIsWord then Option.none
  else
    match eatLitCI "agence".data cs with
    | Option.none => Option.none
    | some cs1 =>
      match cs1 with
      | c :: _ => if isSpaceChar c then some (cs1.dropWhile isSpaceChar) else Option.none
      | [] => Option.none

/-- Left-to-right global substitution by the empty string (`re.sub(p, "",
s)`): at each position try `matcher`; on a match drop the matched span and
continue after it, else keep the character.  Both patterns end in a
whitespace or separator character, never a word character, so after a match
the previous-character-is-word flag is `false`.  `fuel` bounds the number
of steps; each step consumes at least one character, so `length + 1`
suffices. -/
def subScan (matcher : Bool → List Char → Option (List Char)) :
    Nat → Bool → List Char → List Char
  | 0, _, cs => cs
  | _ + 1, _, [] => []
  | fuel + 1, prevIsWord, c :: rest =>
    match matcher prevIsWord (c :: rest) with
    | some rest1 => subScan matcher fuel false rest1
    | Option.none => c :: subScan matcher fuel (isWordChar c) rest

/-- `re.sub(r"(?i)\b(saham\s*bank)\b\s*[-â€“:]\s*", "", s)`. -/
def reSubSaham (s : String) : String :=
  ⟨subScan sahamMatch (s.data.length + 1) false s.data⟩

/-- `re.sub(r"(?i)\bagence\s+", "", s)`. -/
def reSubAgence (s : String) : String :=
  ⟨subScan agenceMatch (s.data.length + 1) false s.data⟩

/-- The branch-name cleanup of `_dict_to_item`: strip the brand prefix,
`.strip()`, strip the `Agence` word, `.strip()`. -/
def branchClean (s : String) : String :=
  pyStripWs (reSubAgence (pyStripWs (reSubSaham s)))

/-- Numeric value of a decimal digit. -/
def digitVal (c : Char) : Nat := c.toNat - 48

/-- Accumulate a run of decimal digits into a number. -/
def digitsToNat (cs : List Char) : Nat :=
  cs.foldl (fun acc c => acc * 10 + digitVal c) 0

/-- Parse an optional exponent part (`e`/`E`, optional sign, digits) of a
float literal; returns the exponent and the rest. -/
def parseExpPart (cs : List Char) : Option (Int × List Char) :=
  match cs with
  | c :: rest =>
    if c = 'e' || c = 'E' then
      let (esign, rest1) : Int × List Char :=
        match rest with
        | '+' :: r => (1, r)
        | '-' :: r => (-1, r)
        | r => (1, r)
      let ds := rest1.takeWhile Char.isDigit
      if ds.isEmpty then Option.none
      else some (esign * (digitsToNat ds : Int), rest1.dropWhile Char.isDigit)
    else some (0, cs)
  | [] => some (0, [])

/-- Continuation of an underscore-grouped digit run: after at least one
digit, further digits may be separated by single underscores (PEP 515);
an underscore not followed by a digit is left unconsumed (the caller's
end-of-input check then rejects it, as Python does). -/
def digitsURest : List Char → (List Char × List Char)
  | '_' :: c :: rest =>
    if c.isDigit then
      let (ds, r) := digitsURest rest
      (c :: ds, r)
    else ([], '_' :: c :: rest)
  | c :: rest =>
    if c.isDigit then
      let (ds, r) := digitsURest rest
      (c :: ds, r)
    else ([], c :: rest)
  | [] => ([], [])

/-- One underscore-grouped run of ASCII digits of a Python numeric literal
(at least one digit; `float()` would also accept non-ASCII decimal digits,
which the claims' inputs do not contain). -/
def parseDigitsU (cs : List Char) : Option (List Char × List Char) :=
  match cs with
  | c :: rest =>
    if c.isDigit then
      let (ds, r) := digitsURest rest
      some (c :: ds, r)
    else Option.none
  | [] => Option.none

/-- Optional exponent of a `float()` literal: `e`/`E`, an optional sign,
and an underscore-grouped digit run. -/
def expPartU (cs : List Char) : Option (Int × List Char) :=
  match cs with
  | c :: rest =>
    if c = 'e' || c = 'E' then
      let (esign, rest1) : Int × List Char :=
        match rest with
        | '+' :: r => (1, r)
        | '-' :: r => (-1, r)
        | r => (1, r)
      match parseDigitsU rest1 with
      | some (ds, r) => some (esign * (digitsToNat ds : Int), r)
      | Option.none => Option.none
    else some (0, cs)
  | [] => some (0, [])

/-- Python `float()`: optional surrounding whitespace, an optional sign,
then `inf`/`infinity`/`nan` (case-insensitive) or a decimal literal
`digits[.digits][eE[+-]digits]` with PEP 515 underscore grouping.
Strings Python rejects yield failure. -/
def parseFloat (s : String) : Option PyFloat :=
  let cs := stripEnds isSpaceChar s.data
  let (neg, cs) : Bool × List Char :=
    match cs with
    | '+' :: r => (false, r)
    | '-' :: r => (true, r)
    | r => (false, r)
  match eatLitCI "infinity".data cs with
  | some [] => some (.inf neg)
  | _ =>
    match eatLitCI "inf".data cs with
    | some [] => some (.inf neg)
    | _ =>
      match eatLitCI "nan".data cs with
      | some [] => some .nan
      | _ =>
        let (ipart, cs1) : List Char × List Char :=
          match parseDigitsU cs with
          | some (ds, r) => (ds, r)
          | Option.none => ([], cs)
        let (fpart, cs2) : List Char × List Char :=
          match cs1 with
          | '.' :: r =>
            (match parseDigitsU r with
             | some (ds, r1) => (ds, r1)
             | Option.none => ([], r))
          | r => ([], r)
        if ipart.isEmpty && fpart.isEmpty then Option.none
        else
          match expPartU cs2 with
          | Option.none => Option.none
          | some (e, cs3) =>
            if cs3.isEmpty then
              let m : Int := (if neg then -1 else 1) * (digitsToNat (ipart ++ fpart) : Int)
              let e1 : Int := e - fpart.length
              some (.finite (if 0 ≤ e1 then mkRat (m * 10 ^ e1.toNat) 1
                             else mkRat m (10 ^ (-e1).toNat)))
            else Option.none

/-- Decimal digits of the fractional part `rem / den`, by repeated
multiplication; the rationals reaching this point come from decimal
literals, whose expansion terminates well within the fuel. -/
def fracDigits : Nat → Nat → Nat → List Char
  | 0, _, _ => []
  | _ + 1, 0, _ => []
  | fuel + 1, rem, den =>
    let r := rem * 10
    Char.ofNat (48 + r / den) :: fracDigits fuel (r % den) den

/-- Python `str()`/`repr()` of a float: sign, integer part, a dot, and the
fractional digits (`"1.0"` for integral values); `"inf"`, `"-inf"` and
`"nan"` for the special values.  CPython prints the shortest decimal that
round-trips; on floats obtained from short decimal literals that is the
literal's exact value, which is what the exact rational stores.  The
scientific form CPython switches to beyond 1e16 is not modelled (no claim
exercises it). -/
def floatRepr : PyFloat → String
  | .finite q =>
    let sign := if q.num < 0 then "-" else ""
    let n := q.num.natAbs
    let frac := fracDigits 64 (n % q.den) q.den
    sign ++ toString (n / q.den) ++ "." ++ (if frac.isEmpty then "0" else ⟨frac⟩)
  | .inf neg => if neg then "-inf" else "inf"
  | .nan => "nan"

/-- A single-quote character (for Python container `repr`). -/
def quoteChar : Char := Char.ofNat 39

mutual

/-- Python `repr()`.  String contents are quoted without escaping and dict
keys are shown like Python shows them; this is only used for the
`str(...)` rendering inside dedup keys, where no claim input contains
containers or quotes. -/
def pyRepr : JVal → String
  | .null => "None"
  | .bool b => if b then "True" else "False"
  | .int n => toString n
  | .float q => floatRepr q
  | .str s => String.singleton quoteChar ++ s ++ String.singleton quoteChar
  | .arr xs => "[" ++ pyReprElems xs ++ "]"
  | .obj kvs => "\x7b" ++ pyReprFields kvs ++ "\x7d"

def pyReprElems : List JVal → String
  | [] => ""
  | [x] => pyRepr x
  | x :: y :: xs => pyRepr x ++ ", " ++ pyReprElems (y :: xs)

def pyReprFields : List (String × JVal) → String
  | [] => ""
  | [(k, v)] =>
      String.singleton quoteChar ++ k ++ String.singleton quoteChar ++ ": " ++ pyRepr v
  | (k, v) :: y :: xs =>
      String.singleton quoteChar ++ k ++ String.singleton quoteChar ++ ": " ++ pyRepr v
        ++ ", " ++ pyReprFields (y :: xs)

end

/-- Python `str()`: like `repr()` except on strings, which it returns as-is. -/
def pyStr : JVal → String
  | .str s => s
  | v => pyRepr v

/-- `lat.replace(",", ".")` applied when the value is a string (the pattern
is a single character, so the replacement is character-wise). -/
def commaToDotStr (s : String) : String :=
  ⟨s.data.map (fun c => if c = ',' then '.' else c)⟩

/-- The `isinstance(x, str)`-guarded comma normalization of `_dict_to_item`. -/
def commaToDot : JVal → JVal
  | .str s => .str (commaToDotStr s)
  | v => v

/-- Case-insensitive suffix test against a lowercase pattern. -/
def endsWithCI (pat : List Char) (cs : List Char) : Bool :=
  decide ((cs.map Char.toLower).drop (cs.length - pat.length) = pat) && decide (pat.length ≤ cs.length)

/-- `_json_sanitize`: `strip()`, `rstrip(";")`, `strip()`, then drop one
trailing `</script>` (case-insensitive, anchored at the end). -/
def jsonSanitize (s : String) : String :=
  let cs := stripEnds isSpaceChar s.data
  let cs := (cs.reverse.dropWhile (· = ';')).reverse
  let cs := stripEnds isSpaceChar cs
  let tag := "</script>".data
  ⟨if endsWithCI tag cs then cs.take (cs.length - tag.length) else cs⟩

/-- The whitespace `json.loads` skips between tokens. -/
def isJsonWs (c : Char) : Bool :=
  c = ' ' || c = '\t' || c = '\n' || c = '\x0d'

/-- Interpret a hexadecimal digit. -/
def hexVal (c : Char) : Option Nat :=
  if c.isDigit then some (c.toNat - 48)
  else if 'a' ≤ c && c ≤ 'f' then some (c.toNat - 87)
  else if 'A' ≤ c && c ≤ 'F' then some (c.toNat - 55)
  else Option.none

/-- Body of a JSON string after the opening quote: plain characters and the
standard escapes (`\uXXXX` as a single code point; surrogate pairs are not
recombined).  Unescaped control characters are rejected as `json.loads`
does in strict mode. -/
def jsonStringBody : List Char → Option (List Char × List Char)
  | [] => Option.none
  | '"' :: rest => some ([], rest)
  | '\\' :: e :: rest =>
    (match e, rest with
     | '"', r => (jsonStringBody r).map (fun (s, t) => ('"' :: s, t))
     | '\\', r => (jsonStringBody r).map (fun (s, t) => ('\\' :: s, t))
     | '/', r => (jsonStringBody r).map (fun (s, t) => ('/' :: s, t))
     | 'b', r => (jsonStringBody r).map (fun (s, t) => ('\x08' :: s, t))
     | 'f', r => (jsonStringBody r).map (fun (s, t) => ('\x0c' :: s, t))
     | 'n', r => (jsonStringBody r).map (fun (s, t) => ('\n' :: s, t))
     | 'r', r => (jsonStringBody r).map (fun (s, t) => ('\x0d' :: s, t))
     | 't', r => (jsonStringBody r).map (fun (s, t) => ('\t' :: s, t))
     | 'u', h1 :: h2 :: h3 :: h4 :: r =>
       (match hexVal h1, hexVal h2, hexVal h3, hexVal h4 with
        | some a, some b, some c, some d =>
          (jsonStringBody r).map (fun (s, t) =>
            (Char.ofNat (((a * 16 + b) * 16 + c) * 16 + d) :: s, t))
        | _, _, _, _ => Option.none)
     | _, _ => Option.none)
  | c :: rest =>
    if c.toNat < 32 then Option.none
    else (jsonStringBody rest).map (fun (s, t) => (c :: s, t))

/-- A JSON number token (RFC 8259 grammar): `-`? int frac? exp?; a token
with a fraction or exponent becomes a Python float, else an int. -/
def jsonNumber (cs : List Char) : Option (JVal × List Char) :=
  let (sign, cs1) : Int × List Char :=
    match cs with
    | '-' :: r => (-1, r)
    | r => (1, r)
  let ipart := cs1.takeWhile Char.isDigit
  let cs2 := cs1.dropWhile Char.isDigit
  if ipart.isEmpty then Option.none
  else if 1 < ipart.length && ipart.headD '0' = '0' then Option.none
  else
    let (fpart, cs3) : List Char × List Char :=
      match cs2 with
      | '.' :: r => (r.takeWhile Char.isDigit, r.dropWhile Char.isDigit)
      | r => ([], r)
    if (match cs2 with | '.' :: _ => fpart.isEmpty | _ => false) then Option.none
    else
      match parseExpPart cs3 with
      | Option.none => Option.none
      | some (e, cs4) =>
        let isFloat := (match cs2 with | '.' :: _ => true | _ => false)
          || (match cs3 with | c :: _ => c = 'e' || c = 'E' | [] => false)
        let m : Int := sign * (digitsToNat (ipart ++ fpart) : Int)
        if isFloat then
          let e1 : Int := e - fpart.length
          some (.float (.finite (if 0 ≤ e1 then mkRat (m * 10 ^ e1.toNat) 1
                        else mkRat m (10 ^ (-e1).toNat))), cs4)
        else some (.int m, cs4)

/-- Insert or overwrite a key (later duplicate keys win, as in the dicts
`json.loads` builds). -/
def objUpsert (kvs : List (String × JVal)) (k : String) (v : JVal) : List (String × JVal) :=
  match kvs with
  | [] => [(k, v)]
  | (k1, v1) :: rest => if k1 = k then (k1, v) :: rest else (k1, v1) :: objUpsert rest k v

mutual

/-- One JSON value, with `fuel` bounding the nesting recursion. -/
def jsonValue : Nat → List Char → Option (JVal × List Char)
  | 0, _ => Option.none
  | fuel + 1, cs =>
    match cs.dropWhile isJsonWs with
    | 'n' :: 'u' :: 'l' :: 'l' :: rest => some (.null, rest)
    | 't' :: 'r' :: 'u' :: 'e' :: rest => some (.bool true, rest)
    | 'f' :: 'a' :: 'l' :: 's' :: 'e' :: rest => some (.bool false, rest)
    | '"' :: rest => (jsonStringBody rest).map (fun (s, t) => (.str ⟨s⟩, t))
    | '[' :: rest =>
      (match rest.dropWhile isJsonWs with
       | ']' :: rest1 => some (.arr [], rest1)
       | _ => (jsonElems fuel rest).map (fun (xs, t) => (.arr xs, t)))
    | '\x7b' :: rest =>
      (match rest.dropWhile isJsonWs with
       | '\x7d' :: rest1 => some (.obj [], rest1)
       | _ => (jsonFields fuel rest []).map (fun (kvs, t) => (.obj kvs, t)))
    | rest => jsonNumber rest

/-- Comma-separated array elements up to the closing bracket. -/
def jsonElems : Nat → List Char → Option (List JVal × List Char)
  | 0, _ => Option.none
  | fuel + 1, cs =>
    match jsonValue fuel cs with
    | Option.none => Option.none
    | some (v, rest) =>
      match rest.dropWhile isJsonWs with
      | ']' :: rest1 => some ([v], rest1)
      | ',' :: rest1 => (jsonElems fuel rest1).map (fun (xs, t) => (v :: xs, t))
      | _ => Option.none

/-- Comma-separated `"key": value` pairs up to the closing brace,
accumulating into `acc` with duplicate keys overwritten. -/
def jsonFields : Nat → List Char → List (String × JVal) → Option (List (String × JVal) × List Char)
  | 0, _, _ => Option.none
  | fuel + 1, cs, acc =>
    match cs.dropWhile isJsonWs with
    | '"' :: rest =>
      (match jsonStringBody rest with
       | Option.none => Option.none
       | some (k, rest1) =>
         match rest1.dropWhile isJsonWs with
         | ':' :: rest2 =>
           (match jsonValue fuel rest2 with
            | Option.none => Option.none
            | some (v, rest3) =>
              let acc1 := objUpsert acc ⟨k⟩ v
              match rest3.dropWhile isJsonWs with
              | '\x7d' :: rest4 => some (acc1, rest4)
              | ',' :: rest4 => jsonFields fuel rest4 acc1
              | _ => Option.none)
         | _ => Option.none)
    | _ => Option.none

end

/-- `json.loads`: one JSON document with nothing but whitespace after it.
The fuel is generous: each recursion step is preceded by consuming at
least one character. -/
def jsonParse (s : String) : Option JVal :=
  match jsonValue (2 * s.data.length + 4) s.data with
  | some (v, rest) => if (rest.dropWhile isJsonWs).isEmpty then some v else Option.none
  | Option.none => Option.none

/-- The normalized item (`Feature`, a dict-like scrapy item).  A field
holding `some JVal.null` is a key that is present and bound to `None`
(Python distinguishes this from an absent key in `item.get(k, default)`),
`Option.none` is an absent key. -/
structure Item where
  name : Option JVal
  branch : Option JVal
  street_address : Option JVal
  city : Option JVal
  state : Option JVal
  postcode : Option JVal
  phone : Option JVal
  email : Option JVal
  lat : Option JVal
  lon : Option JVal
  ref : Option JVal
  category : Option String
  deriving DecidableEq

/-- The freshly constructed item with no field set. -/
def emptyItem : Item :=
  ⟨Option.none, Option.none, Option.none, Option.none, Option.none, Option.none,
   Option.none, Option.none, Option.none, Option.none, Option.none, Option.none⟩

/-- Python `item.get(k)` on a field: `None` when the key is absent. -/
def itemGet (f : Option JVal) : JVal :=
  f.getD .null

/-- Python `item.get(k, d)` on a field. -/
def itemGetD (f : Option JVal) (d : JVal) : JVal :=
  f.getD d

/-- Truthiness of the scrapy item: a mapping is truthy when non-empty,
i.e. when at least one key has been set. -/
def itemTruthy (it : Item) : Bool :=
  it.name.isSome || it.branch.isSome || it.street_address.isSome || it.city.isSome
    || it.state.isSome || it.postcode.isSome || it.phone.isSome || it.email.isSome
    || it.lat.isSome || it.lon.isSome || it.ref.isSome || it.category.isSome

/-- First of the given keys that is present with a non-null value. -/
def firstPresent (raw : RawDict) : List String → Option JVal
  | [] => Option.none
  | k :: ks =>
    match rawLookup raw k with
    | some v => if v = .null then firstPresent raw ks else some v
    | Option.none => firstPresent raw ks

/-- Modelled from the spec: `DictParser.parse` (in `locations/dict_parser.py`,
which is not included under `src/`) maps a raw dictionary with arbitrary
key spellings onto the canonical item fields, field by field, taking for
each field the first known key spelling that is present with a non-null
value ("a small ordered list of named accessor attempts over an untyped
key-value map, returning the first present and non-null value"). -/
def dictParserParse (raw : RawDict) : Item :=
  { name := firstPresent raw ["name"]
    branch := Option.none
    street_address := firstPresent raw ["street_address", "address"]
    city := firstPresent raw ["city"]
    state := firstPresent raw ["state"]
    postcode := firstPresent raw ["postcode", "zip"]
    phone := firstPresent raw ["phone"]
    email := firstPresent raw ["email"]
    lat := firstPresent raw ["lat", "latitude"]
    lon := firstPresent raw ["lon", "lng", "longitude"]
    ref := firstPresent raw ["ref", "id"]
    category := Option.none }

/-- Modelled from the spec: `apply_category(Categories.BANK, item)`
(in `locations/categories.py`, not included under `src/`) tags the item
with the fixed bank category. -/
def applyCategory (it : Item) : Item :=
  { it with category := some "bank" }

/-- The `lat = raw.get("lat") or raw.get("latitude") or raw.get("Latitude")`
chain of `_dict_to_item`. -/
def latChain (raw : RawDict) : JVal :=
  pyOr (rawGet raw "lat") (pyOr (rawGet raw "latitude") (rawGet raw "Latitude"))

/-- The `lng`/`lon`/`longitude`/`Longitude` chain of `_dict_to_item`. -/
def lonChain (raw : RawDict) : JVal :=
  pyOr (rawGet raw "lng") (pyOr (rawGet raw "lon")
    (pyOr (rawGet raw "longitude") (rawGet raw "Longitude")))

/-- The display-name chain of `_dict_to_item`:
`item.get("name") or raw.get("name") or raw.get("nom") or raw.get("title")`. -/
def nameVal (raw : RawDict) (it : Item) : JVal :=
  pyOr (itemGet it.name) (pyOr (rawGet raw "name") (pyOr (rawGet raw "nom") (rawGet raw "title")))

/-- The name/branch cleanup block.  When the chosen name is truthy, the
code hands it to `re.sub`; a truthy non-string there makes Python raise
`TypeError` (nothing catches it in this unit), modelled by `Except.error`.
On a string it stores the cleaned branch and pops `name`. -/
def nameStep (raw : RawDict) (it : Item) : Except Unit Item :=
  let n := nameVal raw it
  if pyTruthy n then
    match n with
    | .str s => .ok { it with branch := some (.str (branchClean s)), name := Option.none }
    | _ => .error ()
  else .ok it

/-- The address-fields block of `_dict_to_item` (each line assigns the key
unconditionally, so a key can end up present with value `None`). -/
def addressStep (raw : RawDict) (it : Item) : Item :=
  { it with
    street_address := some (pyOr (itemGet it.street_address)
      (pyOr (rawGet raw "address") (pyOr (rawGet raw "adresse") (rawGet raw "street"))))
    city := some (pyOr (itemGet it.city) (pyOr (rawGet raw "city") (rawGet raw "ville")))
    state := some (pyOr (itemGet it.state) (pyOr (rawGet raw "state") (rawGet raw "region")))
    postcode := some (pyOr (itemGet it.postcode)
      (pyOr (rawGet raw "postcode") (pyOr (rawGet raw "cp") (rawGet raw "zip")))) }

/-- The contact-fields block of `_dict_to_item`. -/
def contactStep (raw : RawDict) (it : Item) : Item :=
  { it with
    phone := some (pyOr (itemGet it.phone)
      (pyOr (rawGet raw "phone") (pyOr (rawGet raw "tel") (rawGet raw "telephone"))))
    email := some (pyOr (itemGet it.email) (rawGet raw "email")) }

/-- `float(x)`: parses strings, passes numbers through, converts booleans;
on anything else (`None`, containers) Python raises, which the caller's
`except` swallows, so those yield failure here. -/
def pyFloat : JVal → Option PyFloat
  | .str s => parseFloat s
  | .int n => some (.finite (mkRat n 1))
  | .float x => some x
  | .bool b => some (.finite (if b then mkRat 1 1 else mkRat 0 1))
  | _ => Option.none

/-- The guarded geo block:
`if lat and lon: try: item["lat"] = float(lat); item["lon"] = float(lon)
except: pass`.  If `float(lat)` fails neither field is written; if it
succeeds and `float(lon)` fails, `lat` has already been written. -/
def geoStep (lat lon : JVal) (it : Item) : Item :=
  if pyTruthy lat && pyTruthy lon then
    match pyFloat lat with
    | Option.none => it
    | some ql =>
      let it1 := { it with lat := some (.float ql) }
      match pyFloat lon with
      | Option.none => it1
      | some qo => { it1 with lon := some (.float qo) }
  else it

/-- The `f"{item.get('city','')}-{item.get('branch','')}".strip("-")` slug:
each `get` falls back to `""` only when the key is absent, and the
f-string renders the value with `str()` (so a key present with `None`
renders as `"None"`). -/
def citySlug (it : Item) : String :=
  stripDashes (pyStr (itemGetD it.city (.str "")) ++ "-" ++ pyStr (itemGetD it.branch (.str "")))

/-- The final `item["ref"]` fallback chain of `_dict_to_item`. -/
def refStep (raw : RawDict) (it : Item) : Item :=
  { it with
    ref := some (pyOr (rawGet raw "id") (pyOr (rawGet raw "ref")
      (pyOr (rawGet raw "code") (pyOr (rawGet raw "slug") (.str (citySlug it)))))) }

/-- The part of `_dict_to_item` before the geo block (lat/lon raw-value
chains are read before `DictParser.parse` in the source, but they only
feed the geo block). -/
def itemBeforeGeo (raw : RawDict) : Except Unit Item :=
  (nameStep raw (dictParserParse raw)).map (fun it => contactStep raw (addressStep raw it))

/-- `_dict_to_item` in full. -/
def dictToItem (raw : RawDict) : Except Unit Item :=
  (itemBeforeGeo raw).map (fun it =>
    applyCategory (refStep raw
      (geoStep (commaToDot (latChain raw)) (commaToDot (lonChain raw)) it)))

/-- The item `_dict_to_item` returns, when it returns one. -/
def normItem (raw : RawDict) : Item :=
  match dictToItem raw with
  | .ok it => it
  | .error _ => emptyItem

/-- The `(str(item.get("lat")), str(item.get("lon")), item.get("name") or
item.get("branch"))` dedup triple of `parse_locator`. -/
def tripleKey (it : Item) : String × String × JVal :=
  (pyStr (itemGet it.lat), pyStr (itemGet it.lon), pyOr (itemGet it.name) (itemGet it.branch))

/-- A member of the `seen` set: either the truthy `ref` value, or the
fallback triple (Python keeps these apart as values of different types). -/
inductive DedupKey where
  | refKey (v : JVal)
  | tripleK (t : String × String × JVal)
  deriving DecidableEq

/-- `key = item.get("ref") or (triple)`. -/
def keyOf (it : Item) : DedupKey :=
  if pyTruthy (itemGet it.ref) then .refKey (itemGet it.ref) else .tripleK (tripleKey it)

/-- Python hashability of a value: scalars hash, lists and dicts raise
`TypeError: unhashable type`. -/
def hashableJVal : JVal → Bool
  | .arr _ => false
  | .obj _ => false
  | _ => true

/-- Hashability of a dedup key: a bare `ref` value hashes iff it is
hashable; the fallback tuple hashes iff its components do, and only the
third (`item.get("name") or item.get("branch")`) can be non-hashable. -/
def keyHashable : DedupKey → Bool
  | .refKey v => hashableJVal v
  | .tripleK (_, _, v) => hashableJVal v

/-- The emission loop of `parse_locator` over the extracted raw records:
skip falsy items, skip keys already seen, otherwise remember the key and
yield the item.  Three uncaught error paths end the loop with the items
already yielded standing and the rest of the list never processed: an
extracted record that is not a dict makes `raw.get` raise, an exception
from `_dict_to_item` propagates, and `if key in seen:` hashes the key, so
a non-hashable key (a `ref` that is a JSON array/object) raises
`TypeError` before the membership test. -/
def emitLoop (seen : List DedupKey) : List JVal → List Item
  | [] => []
  | rec1 :: rest =>
    match rec1 with
    | .obj raw =>
      (match dictToItem raw with
       | .error _ => []
       | .ok item =>
         if !itemTruthy item then emitLoop seen rest
         else
           let key := keyOf item
           if !keyHashable key then []
           else if (key ∈ seen : Prop) then emitLoop seen rest
           else item :: emitLoop (key :: seen) rest)
    | _ => []

/-- The items `parse_locator` yields for a given extracted record list. -/
def emitItems (locations : List JVal) : List Item :=
  emitLoop [] locations

/-- An extracted record that normalizes without raising: a dict on which
`_dict_to_item` succeeds. -/
def recordOk : JVal → Bool
  | .obj raw => (match dictToItem raw with | .ok _ => true | .error _ => false)
  | _ => false

/-- An extracted record the emission loop survives: it normalizes and its
dedup key is hashable (so `key in seen` does not raise). -/
def recordSafe : JVal → Bool
  | .obj raw =>
    (match dictToItem raw with
     | .ok it => keyHashable (keyOf it)
     | .error _ => false)
  | _ => false

/-- The normalized `ref` value of an extracted record, when the record is
a dict that normalizes. -/
def recRef (v : JVal) : Option JVal :=
  match v with
  | .obj raw => (match dictToItem raw with | .ok it => some (itemGet it.ref) | .error _ => Option.none)
  | _ => Option.none

/-- Of a record list, the normalized item of the first record whose
normalized `ref` is `r` (empty when there is none). -/
def firstItemWithRef (r : JVal) (L : List JVal) : List Item :=
  match L.find? (fun v => recRef v == some r) with
  | some (.obj raw) => [normItem raw]
  | _ => []

/-- Does the lowercased key set of the dict contain every key of one of the
four location templates (`{...} <= keys` is the subset test on sets)? -/
def keysMatchTemplate (kvs : List (String × JVal)) : Bool :=
  [["name", "lat", "lng"], ["nom", "latitude", "longitude"],
   ["title", "coordinates"], ["adresse", "ville"]].any
    (fun tpl => tpl.all (fun k => kvs.any (fun kv => kv.1.toLower = k)))

/-- Is the node a non-empty array whose first element is a dict with a
matching key set (the collection condition of `_extract_locations_from_blob`)? -/
def isLocArray : JVal → Bool
  | .arr (first :: _) =>
    (match first with
     | .obj kvs => keysMatchTemplate kvs
     | _ => false)
  | _ => false

/-- The elements of an array node (empty for anything else). -/
def elemsOf : JVal → List JVal
  | .arr xs => xs
  | _ => []

mutual

/-- The `walk` closure of `_extract_locations_from_blob`: at each node,
extend `found` with the node's elements when the node is a matching array,
then descend into dict values / list elements. -/
def walk : JVal → List JVal
  | .arr xs => (if isLocArray (.arr xs) then xs else []) ++ walkElems xs
  | .obj kvs => walkFields kvs
  | _ => []

def walkElems : List JVal → List JVal
  | [] => []
  | x :: xs => walk x ++ walkElems xs

def walkFields : List (String × JVal) → List JVal
  | [] => []
  | (_, v) :: kvs => walk v ++ walkFields kvs

end

/-- `_extract_locations_from_blob`. -/
def extractLocationsFromBlob (blob : JVal) : List JVal :=
  walk blob

mutual

/-- All descendant nodes of a value (the value itself, then recursively
the dict values and array elements), in the pre-order the walk visits. -/
def subnodes : JVal → List JVal
  | .arr xs => .arr xs :: subnodesElems xs
  | .obj kvs => .obj kvs :: subnodesFields kvs
  | v => [v]

def subnodesElems : List JVal → List JVal
  | [] => []
  | x :: xs => subnodes x ++ subnodesElems xs

def subnodesFields : List (String × JVal) → List JVal
  | [] => []
  | (_, v) :: kvs => subnodes v ++ subnodesFields kvs

end

/-- The claim's description of the blob walker: the concatenation, over
every descendant array whose first element is a dict whose lowercased key
set matches one of the four templates, of that array's elements. -/
def specLocationConcat (blob : JVal) : List JVal :=
  ((subnodes blob).filter isLocArray).flatMap elemsOf

/-- Contribution of one descendant node to the collected locations. -/
def pickLoc (v : JVal) : List JVal :=
  if isLocArray v then elemsOf v else []

/-- One SSR-payload candidate of `parse_locator` (a regex capture of the
`__NUXT__`/`__NEXT_DATA__`/`__APOLLO_STATE__`/`__INITIAL_STATE__`
patterns): sanitize, `json.loads` inside `try`, and on success walk the
blob; a parse failure contributes nothing and raises nothing. -/
def processCandidateSSR (c : String) : List JVal :=
  match jsonParse (jsonSanitize c) with
  | some blob => extractLocationsFromBlob blob
  | Option.none => []

/-- One heuristic array candidate of `parse_locator` (a regex capture of
the bracketed array-of-object pattern): sanitize, `json.loads` inside
`try`; on a non-empty array whose first dict has a name-like and a
city-like key, take the whole array. -/
def processCandidateArr (c : String) : List JVal :=
  match jsonParse (jsonSanitize c) with
  | some (.arr (first :: rest)) =>
    (match first with
     | .obj kvs =>
       if (["name", "nom", "title"].any (fun k => (rawLookup kvs k).isSome))
           && (["city", "ville", "locality"].any (fun k => (rawLookup kvs k).isSome)) then
         first :: rest
       else []
     | _ => [])
  | _ => []

/-- The candidate payloads regex-captured from one script block: the SSR
pattern captures in pattern order, then the heuristic array captures.  The
regex engine itself is not embedded; the captured strings are the
function's input. -/
structure ScriptCandidates where
  ssr : List String
  arrs : List String

/-- The record-extraction phase of `parse_locator` over all script blocks. -/
def parseLocatorExtract (scripts : List ScriptCandidates) : List JVal :=
  scripts.flatMap (fun sc =>
    sc.ssr.flatMap processCandidateSSR ++ sc.arrs.flatMap processCandidateArr)

/-- `parse_locator` end to end on the captured candidate payloads:
extraction followed by the dedup-and-yield loop. -/
def parseLocator (scripts : List ScriptCandidates) : List Item :=
  emitItems (parseLocatorExtract scripts)


/-! ### Bridge lemmas -/

theorem pyOr_truthy (a b : JVal) : pyTruthy (pyOr a b) = (pyTruthy a || pyTruthy b) := by
  unfold pyOr
  by_cases h : pyTruthy a <;> simp [h]

theorem pyOr_of_truthy {a : JVal} (b : JVal) (h : pyTruthy a = true) : pyOr a b = a := by
  simp [pyOr, h]

theorem pyOr_of_falsy {a : JVal} (b : JVal) (h : pyTruthy a = false) : pyOr a b = b := by
  simp [pyOr, h]

theorem str_truthy_iff (s : String) : pyTruthy (.str s) = true ↔ s ≠ "" := by
  simp [pyTruthy]
  constructor
  · intro h he
    subst he
    simp at h
  · intro h
    intro hd
    exact h (by cases s; simp_all)

theorem commaToDot_truthy (v : JVal) : pyTruthy (commaToDot v) = pyTruthy v := by
  cases v <;> simp [commaToDot, pyTruthy, commaToDotStr]
  rename_i s
  cases s.data <;> simp

theorem parseFloat_of_empty : parseFloat "" = Option.none := by rfl

theorem commaToDotStr_empty : commaToDotStr "" = "" := by rfl

theorem geoStep_of_falsy {la lo : JVal} (it : Item)
    (h : pyTruthy la = false ∨ pyTruthy lo = false) : geoStep la lo it = it := by
  unfold geoStep
  rcases h with h | h <;> simp [h]

theorem geoStep_of_latFail {la : JVal} (lo : JVal) (it : Item)
    (h : pyFloat la = Option.none) : geoStep la lo it = it := by
  unfold geoStep
  split
  · simp [h]
  · rfl

theorem geoStep_of_latOkLonFail {la lo : JVal} (it : Item) {ql : PyFloat}
    (hla : pyFloat la = some ql) (hlo : pyFloat lo = Option.none)
    (htl : pyTruthy la = true) (hto : pyTruthy lo = true) :
    geoStep la lo it = { it with lat := some (.float ql) } := by
  unfold geoStep
  simp [hla, hlo, htl, hto]

theorem geoStep_of_bothOk {la lo : JVal} (it : Item) {ql qo : PyFloat}
    (hla : pyFloat la = some ql) (hlo : pyFloat lo = some qo)
    (htl : pyTruthy la = true) (hto : pyTruthy lo = true) :
    geoStep la lo it = { it with lat := some (.float ql), lon := some (.float qo) } := by
  unfold geoStep
  simp [hla, hlo, htl, hto]

theorem geoStep_city (la lo : JVal) (it : Item) : (geoStep la lo it).city = it.city := by
  unfold geoStep
  split
  · rcases hla : pyFloat la with _ | ql
    · simp [hla]
    · rcases hlo : pyFloat lo with _ | qo <;> simp [hla, hlo]
  · rfl

theorem geoStep_branch (la lo : JVal) (it : Item) : (geoStep la lo it).branch = it.branch := by
  unfold geoStep
  split
  · rcases hla : pyFloat la with _ | ql
    · simp [hla]
    · rcases hlo : pyFloat lo with _ | qo <;> simp [hla, hlo]
  · rfl

theorem geoStep_name (la lo : JVal) (it : Item) : (geoStep la lo it).name = it.name := by
  unfold geoStep
  split
  · rcases hla : pyFloat la with _ | ql
    · simp [hla]
    · rcases hlo : pyFloat lo with _ | qo <;> simp [hla, hlo]
  · rfl

theorem dictToItem_of_beforeGeo {raw : RawDict} {it0 : Item} (h : itemBeforeGeo raw = .ok it0) :
    dictToItem raw = .ok (applyCategory (refStep raw
      (geoStep (commaToDot (latChain raw)) (commaToDot (lonChain raw)) it0))) := by
  simp [dictToItem, h, Except.map]

theorem dictToItem_exists_beforeGeo {raw : RawDict} {it : Item} (h : dictToItem raw = .ok it) :
    ∃ it0, itemBeforeGeo raw = .ok it0 ∧
      it = applyCategory (refStep raw
        (geoStep (commaToDot (latChain raw)) (commaToDot (lonChain raw)) it0)) := by
  rcases hbg : itemBeforeGeo raw with e | it0
  · rw [dictToItem, hbg] at h
    simp [Except.map] at h
  · refine ⟨it0, rfl, ?_⟩
    rw [dictToItem_of_beforeGeo hbg] at h
    exact (Except.ok.injEq _ _ ▸ h).symm ▸ rfl

theorem dictToItem_truthy {raw : RawDict} {it : Item} (h : dictToItem raw = .ok it) :
    itemTruthy it = true := by
  obtain ⟨it0, _, hit⟩ := dictToItem_exists_beforeGeo h
  subst hit
  simp [applyCategory, itemTruthy]

theorem normItem_of_ok {raw : RawDict} {it : Item} (h : dictToItem raw = .ok it) :
    normItem raw = it := by
  simp [normItem, h]

theorem parseFloat_nonempty {s : String} {x : PyFloat} (h : parseFloat (commaToDotStr s) = some x) :
    s ≠ "" := by
  intro he
  subst he
  rw [commaToDotStr_empty, parseFloat_of_empty] at h
  exact Option.noConfusion h

theorem keyOf_of_ref {it : Item} {r : JVal} (h : itemGet it.ref = r) (ht : pyTruthy r = true) :
    keyOf it = .refKey r := by
  simp [keyOf, h, ht]

theorem keyOf_ne_refKey {it : Item} {r : JVal} (h : itemGet it.ref ≠ r) :
    keyOf it ≠ .refKey r := by
  unfold keyOf
  split
  · intro hc
    exact h (DedupKey.refKey.injEq _ _ ▸ hc)
  · intro hc
    exact DedupKey.noConfusion hc

theorem nameStep_cases {raw : RawDict} {base it1 : Item} (h : nameStep raw base = .ok it1) :
    (∃ s, nameVal raw base = .str s
        ∧ it1 = { base with branch := some (.str (branchClean s)), name := Option.none })
      ∨ (pyTruthy (nameVal raw base) = false ∧ it1 = base) := by
  simp only [nameStep] at h
  by_cases ht : pyTruthy (nameVal raw base) = true
  · rw [if_pos ht] at h
    rcases hv : nameVal raw base with _ | b | n | q | s | xs | kvs <;> rw [hv] at h
    · exact Except.noConfusion h
    · exact Except.noConfusion h
    · exact Except.noConfusion h
    · exact Except.noConfusion h
    · left
      have h2 : Except.ok (ε := Unit)
          { base with branch := some (.str (branchClean s)), name := Option.none }
          = Except.ok it1 := h
      exact ⟨s, rfl, (Except.ok.inj h2).symm⟩
    · exact Except.noConfusion h
    · exact Except.noConfusion h
  · rw [if_neg ht] at h
    right
    exact ⟨Bool.not_eq_true _ ▸ ht, (Except.ok.inj h).symm⟩

/-- For every item `_dict_to_item` returns, the third component of the
fallback dedup triple — `item.get("name") or item.get("branch")` — is a
hashable value (`None` or a string): a truthy non-string name would have
raised in `re.sub`, and `branch` is only ever set to a string. -/
theorem dictToItem_third_hashable {raw : RawDict} {it : Item} (h : dictToItem raw = .ok it) :
    hashableJVal (pyOr (itemGet it.name) (itemGet it.branch)) = true := by
  obtain ⟨it0, hbg, hit⟩ := dictToItem_exists_beforeGeo h
  have hname : it.name = it0.name := by
    rw [hit]
    exact geoStep_name _ _ it0
  have hbranch : it.branch = it0.branch := by
    rw [hit]
    exact geoStep_branch _ _ it0
  rw [hname, hbranch]
  rcases hns : nameStep raw (dictParserParse raw) with e | it1
  · rw [itemBeforeGeo, hns] at hbg
    simp [Except.map] at hbg
  · rw [itemBeforeGeo, hns] at hbg
    simp [Except.map] at hbg
    have h0n : it0.name = it1.name := by
      rw [← hbg]
      rfl
    have h0b : it0.branch = it1.branch := by
      rw [← hbg]
      rfl
    rw [h0n, h0b]
    rcases nameStep_cases hns with ⟨s, _, hit1⟩ | ⟨hfalse, hit1⟩
    · rw [hit1]
      rfl
    · rw [hit1]
      have hfn : pyTruthy (itemGet (dictParserParse raw).name) = false := by
        have := pyOr_truthy (itemGet (dictParserParse raw).name)
          (pyOr (rawGet raw "name") (pyOr (rawGet raw "nom") (rawGet raw "title")))
        rw [show nameVal raw (dictParserParse raw)
            = pyOr (itemGet (dictParserParse raw).name)
              (pyOr (rawGet raw "name") (pyOr (rawGet raw "nom") (rawGet raw "title")))
          from rfl] at hfalse
        rw [hfalse] at this
        exact (Bool.or_eq_false_iff.mp this.symm).1
      rw [show itemGet (dictParserParse raw).branch = .null from rfl,
        pyOr_of_falsy _ hfn]
      rfl

theorem keyOf_of_falsy {it : Item} (h : pyTruthy (itemGet it.ref) = false) :
    keyOf it = .tripleK (tripleKey it) := by
  simp [keyOf, h]

/-- A falsy final `ref` makes the dedup key the fallback triple, which is
always hashable for an item `_dict_to_item` returns. -/
theorem keyOf_falsy_hashable {raw : RawDict} {it : Item} (h : dictToItem raw = .ok it)
    (href : pyTruthy (itemGet it.ref) = false) : keyHashable (keyOf it) = true := by
  rw [keyOf_of_falsy href]
  exact dictToItem_third_hashable h

/-! ### Claim theorems -/

/-- Claim C1: a raw record whose latitude and longitude chains produce
comma-decimal strings (strings that parse as floats once the comma is read
as a decimal point) is normalized with `lat` and `lon` set to exactly
those parsed floats. -/
theorem claim_C1_comma_decimal_coordinates
    (raw : RawDict) (it : Item) (slat slon : String) (qlat qlon : Rat)
    (h : dictToItem raw = .ok it)
    (hlat : latChain raw = .str slat) (hlon : lonChain raw = .str slon)
    (hplat : parseFloat (commaToDotStr slat) = some (.finite qlat))
    (hplon : parseFloat (commaToDotStr slon) = some (.finite qlon)) :
    it.lat = some (.float (.finite qlat)) ∧ it.lon = some (.float (.finite qlon)) := by
  obtain ⟨it0, hbg, hit⟩ := dictToItem_exists_beforeGeo h
  have htl : pyTruthy (commaToDot (latChain raw)) = true := by
    rw [commaToDot_truthy, hlat, str_truthy_iff]
    exact parseFloat_nonempty hplat
  have hto : pyTruthy (commaToDot (lonChain raw)) = true := by
    rw [commaToDot_truthy, hlon, str_truthy_iff]
    exact parseFloat_nonempty hplon
  have hfl : pyFloat (commaToDot (latChain raw)) = some (.finite qlat) := by
    rw [hlat]
    exact hplat
  have hfo : pyFloat (commaToDot (lonChain raw)) = some (.finite qlon) := by
    rw [hlon]
    exact hplon
  rw [hit, geoStep_of_bothOk it0 hfl hfo htl hto]
  exact ⟨rfl, rfl⟩

/-- Witness for C1 on a concrete record with `lat = "33,58"`,
`lng = "-7,6"`. -/
theorem claim_C1_witness :
    (normItem [("lat", .str "33,58"), ("lng", .str "-7,6")]).lat
        = some (.float (.finite (mkRat 3358 100)))
      ∧ (normItem [("lat", .str "33,58"), ("lng", .str "-7,6")]).lon
        = some (.float (.finite (mkRat (-76) 10))) :=
  claim_C1_comma_decimal_coordinates
    [("lat", .str "33,58"), ("lng", .str "-7,6")]
    (normItem [("lat", .str "33,58"), ("lng", .str "-7,6")])
    "33,58" "-7,6" (mkRat 3358 100) (mkRat (-76) 10)
    (by rfl) (by rfl) (by rfl) (by rfl) (by rfl)

/-- Claim C10: when the latitude chain (or the longitude chain) of the raw
record is falsy — the number `0`, the empty string, `None`, and so on —
the geo block is skipped entirely, so `lat` and `lon` stay whatever the
earlier normalization steps left there (a branch on the equator or prime
meridian gets no coordinates from this path). -/
theorem claim_C10_falsy_coordinate_skips_geo
    (raw : RawDict) (it it0 : Item)
    (h : dictToItem raw = .ok it) (hbg : itemBeforeGeo raw = .ok it0)
    (hfalsy : pyTruthy (latChain raw) = false ∨ pyTruthy (lonChain raw) = false) :
    it.lat = it0.lat ∧ it.lon = it0.lon := by
  obtain ⟨it1, hbg1, hit⟩ := dictToItem_exists_beforeGeo h
  rw [hbg] at hbg1
  cases hbg1
  have : geoStep (commaToDot (latChain raw)) (commaToDot (lonChain raw)) it0 = it0 := by
    apply geoStep_of_falsy
    rcases hfalsy with hf | hf
    · exact Or.inl (by rw [commaToDot_truthy, hf])
    · exact Or.inr (by rw [commaToDot_truthy, hf])
  rw [hit, this]
  exact ⟨rfl, rfl⟩

/-- Witness for C10 on a record located exactly on the equator
(`lat = 0`). -/
theorem claim_C10_witness :
    (normItem [("lat", .int 0), ("lng", .float (.finite (mkRat 3 1))), ("name", .str "Agence E")]).lat
        = some (.int 0)
      ∧ (normItem [("lat", .int 0), ("lng", .float (.finite (mkRat 3 1))), ("name", .str "Agence E")]).lon
        = some (.float (.finite (mkRat 3 1))) := by
  have h := claim_C10_falsy_coordinate_skips_geo
    [("lat", .int 0), ("lng", .float (.finite (mkRat 3 1))), ("name", .str "Agence E")]
    (normItem [("lat", .int 0), ("lng", .float (.finite (mkRat 3 1))), ("name", .str "Agence E")])
    (contactStep [("lat", .int 0), ("lng", .float (.finite (mkRat 3 1))), ("name", .str "Agence E")]
      (addressStep [("lat", .int 0), ("lng", .float (.finite (mkRat 3 1))), ("name", .str "Agence E")]
        { dictParserParse [("lat", .int 0), ("lng", .float (.finite (mkRat 3 1))), ("name", .str "Agence E")]
            with branch := some (.str "E"), name := Option.none }))
    (by rfl) (by rfl) (Or.inl (by rfl))
  exact h

/-- Claim C8: the concrete display name `"Saham Bank - Agence Casablanca"`
normalizes to `branch = "Casablanca"` with the `name` key removed. -/
theorem claim_C8_casablanca_branch :
    (normItem [("name", .str "Saham Bank - Agence Casablanca")]).branch
        = some (.str "Casablanca")
      ∧ (normItem [("name", .str "Saham Bank - Agence Casablanca")]).name = Option.none := by
  constructor <;> rfl

/-- Counterexample to claim C4: the record `{"name": "Agence Rabat"}` has
no id-like key and no city, yet its synthesized `ref` is `"None-Rabat"`,
not the bare branch `"Rabat"`: the city key has already been assigned
`None` by the normalizer, and the f-string renders that as the placeholder
text `"None"`, which `strip("-")` does not remove. -/
theorem claim_C4_counterexample :
    (["id", "ref", "code", "slug"].all
        (fun k => (rawLookup [("name", JVal.str "Agence Rabat")] k).isNone)) = true
      ∧ itemGet (normItem [("name", .str "Agence Rabat")]).ref = .str "None-Rabat"
      ∧ itemGet (normItem [("name", .str "Agence Rabat")]).ref ≠ .str "Rabat" := by
  refine ⟨rfl, rfl, ?_⟩
  decide

/-- Claim C4 as amended: with all id-like keys absent, `ref` is the
f-string `"{city}-{branch}"` over the normalized city and branch fields —
rendered with Python `str()`, so a field assigned `None` contributes the
placeholder `"None"` and an absent field contributes `""` — stripped of
leading and trailing `"-"` characters (`citySlug` is that computation). -/
theorem claim_C4_amended_synthesized_ref
    (raw : RawDict) (it : Item) (h : dictToItem raw = .ok it)
    (hid : rawLookup raw "id" = Option.none) (href : rawLookup raw "ref" = Option.none)
    (hcode : rawLookup raw "code" = Option.none) (hslug : rawLookup raw "slug" = Option.none) :
    itemGet it.ref = .str (citySlug it) := by
  obtain ⟨it0, hbg, hit⟩ := dictToItem_exists_beforeGeo h
  have hgid : rawGet raw "id" = .null := by simp [rawGet, hid]
  have hgref : rawGet raw "ref" = .null := by simp [rawGet, href]
  have hgcode : rawGet raw "code" = .null := by simp [rawGet, hcode]
  have hgslug : rawGet raw "slug" = .null := by simp [rawGet, hslug]
  have hnull : pyTruthy JVal.null = false := rfl
  rw [hit]
  show itemGet (some (pyOr (rawGet raw "id") (pyOr (rawGet raw "ref")
    (pyOr (rawGet raw "code") (pyOr (rawGet raw "slug") (.str (citySlug _))))))) = _
  rw [hgid, hgref, hgcode, hgslug]
  rw [pyOr_of_falsy _ hnull, pyOr_of_falsy _ hnull, pyOr_of_falsy _ hnull,
    pyOr_of_falsy _ hnull]
  rfl

/-- Witness for the amended C4 at the counterexample record. -/
theorem claim_C4_amended_witness :
    itemGet (normItem [("name", .str "Agence Rabat")]).ref
      = .str (citySlug (normItem [("name", .str "Agence Rabat")])) :=
  claim_C4_amended_synthesized_ref [("name", .str "Agence Rabat")]
    (normItem [("name", .str "Agence Rabat")])
    (by rfl) (by rfl) (by rfl) (by rfl) (by rfl)

/-- Counterexample to claim C5: with `ville = ""` and display name
`"Saham Bank -"` the whole brand prefix is stripped away, city and branch
both normalize to the empty string, no id-like key exists, and the final
`ref` is the empty string — the invariant fails. -/
theorem claim_C5_counterexample :
    itemGet (normItem [("ville", .str ""), ("name", .str "Saham Bank -")]).ref = .str ""
      ∧ pyTruthy (itemGet (normItem [("ville", .str ""),
          ("name", .str "Saham Bank -")]).ref) = false := by
  constructor <;> rfl

/-- Claim C5 as amended: after the fallback chain, `ref` is truthy exactly
when one of the id-like raw fields is truthy or the synthesized
city-branch slug is a non-empty string; when every id-like field is falsy
and the slug strips to nothing, `ref` is the empty string. -/
theorem claim_C5_amended_ref_truthiness
    (raw : RawDict) (it : Item) (h : dictToItem raw = .ok it) :
    pyTruthy (itemGet it.ref)
      = (pyTruthy (rawGet raw "id") || pyTruthy (rawGet raw "ref")
          || pyTruthy (rawGet raw "code") || pyTruthy (rawGet raw "slug")
          || pyTruthy (.str (citySlug it))) := by
  obtain ⟨it0, hbg, hit⟩ := dictToItem_exists_beforeGeo h
  have hslugEq : citySlug it
      = citySlug (geoStep (commaToDot (latChain raw)) (commaToDot (lonChain raw)) it0) := by
    unfold citySlug
    rw [hit]
    rfl
  rw [hslugEq, hit]
  show pyTruthy (itemGet (some (pyOr (rawGet raw "id") (pyOr (rawGet raw "ref")
    (pyOr (rawGet raw "code") (pyOr (rawGet raw "slug") (.str (citySlug _)))))))) = _
  show pyTruthy (pyOr (rawGet raw "id") (pyOr (rawGet raw "ref")
    (pyOr (rawGet raw "code") (pyOr (rawGet raw "slug") (.str (citySlug _)))))) = _
  rw [pyOr_truthy, pyOr_truthy, pyOr_truthy, pyOr_truthy]
  simp [Bool.or_assoc]

/-- Witness for the amended C5: a record carrying a truthy `id` gets a
truthy `ref`. -/
theorem claim_C5_amended_witness :
    pyTruthy (itemGet (normItem [("id", .int 7)]).ref) = true := by
  rw [claim_C5_amended_ref_truthiness [("id", .int 7)] (normItem [("id", .int 7)]) (by rfl)]
  rfl

/-- Counterexample to claim C7: a record whose latitude string `"abc"`
fails to parse is not dropped — `parse_locator` still emits one item for
it (with no coordinates from the geo path). -/
theorem claim_C7_counterexample :
    parseFloat (commaToDotStr "abc") = Option.none
      ∧ (emitItems [.obj [("lat", .str "abc"), ("lng", .str "1,5"),
          ("name", .str "Agence X")]]).length = 1 := by
  constructor <;> rfl

/-- Claim C7 as amended: a latitude string that `float()` rejects (after
the comma normalization; `parseFloat` models `float()` including its
`inf`/`nan`/underscore spellings) is swallowed by the `try/except` — no
error escapes and `lat`/`lon` are left as the earlier steps produced
them — but the record is NOT dropped: provided its dedup key is hashable,
the normalized item is still emitted. -/
theorem claim_C7_amended_bad_numeric_swallowed_but_emitted
    (raw : RawDict) (it it0 : Item) (slat : String)
    (h : dictToItem raw = .ok it) (hbg : itemBeforeGeo raw = .ok it0)
    (hlat : latChain raw = .str slat)
    (hp : parseFloat (commaToDotStr slat) = Option.none)
    (hhash : keyHashable (keyOf it) = true) :
    it.lat = it0.lat ∧ it.lon = it0.lon ∧ emitItems [.obj raw] = [it] := by
  obtain ⟨it1, hbg1, hit⟩ := dictToItem_exists_beforeGeo h
  rw [hbg] at hbg1
  cases hbg1
  have hfail : pyFloat (commaToDot (latChain raw)) = Option.none := by
    rw [hlat]
    exact hp
  have hskip := geoStep_of_latFail (commaToDot (lonChain raw)) it0 hfail
  refine ⟨?_, ?_, ?_⟩
  · rw [hit, hskip]
    rfl
  · rw [hit, hskip]
    rfl
  · simp [emitItems, emitLoop, h, dictToItem_truthy h, hhash]

/-- Witness for the amended C7 at the counterexample record. -/
theorem claim_C7_amended_witness :
    (normItem [("lat", .str "abc"), ("lng", .str "1,5"), ("name", .str "Agence X")]).lat
        = (contactStep [("lat", .str "abc"), ("lng", .str "1,5"), ("name", .str "Agence X")]
            (addressStep [("lat", .str "abc"), ("lng", .str "1,5"), ("name", .str "Agence X")]
              { dictParserParse [("lat", .str "abc"), ("lng", .str "1,5"),
                  ("name", .str "Agence X")] with
                branch := some (.str "X"), name := Option.none })).lat
      ∧ (normItem [("lat", .str "abc"), ("lng", .str "1,5"), ("name", .str "Agence X")]).lon
        = (contactStep [("lat", .str "abc"), ("lng", .str "1,5"), ("name", .str "Agence X")]
            (addressStep [("lat", .str "abc"), ("lng", .str "1,5"), ("name", .str "Agence X")]
              { dictParserParse [("lat", .str "abc"), ("lng", .str "1,5"),
                  ("name", .str "Agence X")] with
                branch := some (.str "X"), name := Option.none })).lon
      ∧ emitItems [.obj [("lat", .str "abc"), ("lng", .str "1,5"), ("name", .str "Agence X")]]
        = [normItem [("lat", .str "abc"), ("lng", .str "1,5"), ("name", .str "Agence X")]] :=
  claim_C7_amended_bad_numeric_swallowed_but_emitted
    [("lat", .str "abc"), ("lng", .str "1,5"), ("name", .str "Agence X")]
    (normItem [("lat", .str "abc"), ("lng", .str "1,5"), ("name", .str "Agence X")])
    (contactStep [("lat", .str "abc"), ("lng", .str "1,5"), ("name", .str "Agence X")]
      (addressStep [("lat", .str "abc"), ("lng", .str "1,5"), ("name", .str "Agence X")]
        { dictParserParse [("lat", .str "abc"), ("lng", .str "1,5"),
            ("name", .str "Agence X")] with
          branch := some (.str "X"), name := Option.none }))
    "abc" (by rfl) (by rfl) (by rfl) (by rfl) (by rfl)

theorem emitLoop_cons_obj {raw : RawDict} {it : Item} (seen : List DedupKey)
    (rest : List JVal) (hdi : dictToItem raw = .ok it) (htru : itemTruthy it = true)
    (hhash : keyHashable (keyOf it) = true) :
    emitLoop seen (.obj raw :: rest)
      = if keyOf it ∈ seen then emitLoop seen rest
        else it :: emitLoop (keyOf it :: seen) rest := by
  rw [emitLoop, hdi]
  simp [htru, hhash]

theorem emitLoop_filter_ref (r : JVal) (htr : pyTruthy r = true) :
    ∀ (L : List JVal) (seen : List DedupKey), (∀ v ∈ L, recordSafe v = true) →
      ((DedupKey.refKey r ∉ seen →
          (emitLoop seen L).filter (fun it => itemGet it.ref == r) = firstItemWithRef r L)
        ∧ (DedupKey.refKey r ∈ seen →
          (emitLoop seen L).filter (fun it => itemGet it.ref == r) = []))
  | [], seen, _ => by
      simp [emitLoop, firstItemWithRef]
  | v :: rest, seen, hok => by
      have hv := hok v (List.mem_cons_self v rest)
      have hrest : ∀ u ∈ rest, recordSafe u = true :=
        fun u hu => hok u (List.mem_cons_of_mem v hu)
      rcases v with _ | b | n | q | s | xs | raw <;> simp [recordSafe] at hv
      rcases hdi : dictToItem raw with e | it
      · rw [hdi] at hv
        simp at hv
      · rw [hdi] at hv
        have hhash : keyHashable (keyOf it) = true := hv
        have htru := dictToItem_truthy hdi
        have hnorm := normItem_of_ok hdi
        have hcons := emitLoop_cons_obj seen rest hdi htru hhash
        by_cases hr : itemGet it.ref = r
        · -- this record carries the ref in question
          have hkey : keyOf it = .refKey r := keyOf_of_ref hr htr
          have hfind : firstItemWithRef r (JVal.obj raw :: rest) = [it] := by
            unfold firstItemWithRef
            rw [List.find?_cons_of_pos _ (by simp [recRef, hdi, hr])]
            show [normItem raw] = [it]
            rw [hnorm]
          constructor
          · intro hnot
            rw [hfind, hcons, hkey, if_neg hnot,
              List.filter_cons_of_pos (by simp [hr]),
              (emitLoop_filter_ref r htr rest (DedupKey.refKey r :: seen) hrest).2
                (List.mem_cons_self _ _)]
          · intro hmem
            rw [hcons, hkey, if_pos hmem]
            exact (emitLoop_filter_ref r htr rest seen hrest).2 hmem
        · -- a record with a different (or falsy) ref
          have hkey : keyOf it ≠ .refKey r := keyOf_ne_refKey hr
          have hfind : firstItemWithRef r (JVal.obj raw :: rest) = firstItemWithRef r rest := by
            unfold firstItemWithRef
            rw [List.find?_cons_of_neg _ (by simp [recRef, hdi, hr])]
          rw [hfind]
          by_cases hks : keyOf it ∈ seen
          · rw [hcons, if_pos hks]
            exact emitLoop_filter_ref r htr rest seen hrest
          · rw [hcons, if_neg hks]
            constructor
            · intro hnot
              rw [List.filter_cons_of_neg (by simp [hr])]
              refine (emitLoop_filter_ref r htr rest (keyOf it :: seen) hrest).1 ?_
              intro hc
              rcases List.mem_cons.mp hc with hc | hc
              · exact hkey hc.symm
              · exact hnot hc
            · intro hmem
              rw [List.filter_cons_of_neg (by simp [hr])]
              exact (emitLoop_filter_ref r htr rest (keyOf it :: seen) hrest).2
                (List.mem_cons_of_mem _ hmem)

/-- Counterexample to claim C2 as universally stated: the records at
positions 1 and 2 share the truthy `ref` 7, and every record in the list
normalizes without raising (`recordOk`), yet zero items are emitted
instead of one: the record before them has `id = [1]`, so its dedup key is
the list `[1]`, and `if key in seen:` hashes the key and raises
`TypeError: unhashable type` — the exception propagates out of the
callback before the ref-7 records are reached. -/
theorem claim_C2_counterexample :
    pyTruthy (.int 7) = true
      ∧ recordOk (.obj [("id", JVal.arr [.int 1])]) = true
      ∧ recordSafe (.obj [("id", JVal.arr [.int 1])]) = false
      ∧ recRef ([JVal.obj [("id", JVal.arr [.int 1])],
          .obj [("id", .int 7), ("name", .str "Agence A")],
          .obj [("id", .int 7), ("name", .str "Agence B")]].get ⟨1, by decide⟩)
        = some (.int 7)
      ∧ recRef ([JVal.obj [("id", JVal.arr [.int 1])],
          .obj [("id", .int 7), ("name", .str "Agence A")],
          .obj [("id", .int 7), ("name", .str "Agence B")]].get ⟨2, by decide⟩)
        = some (.int 7)
      ∧ emitItems [JVal.obj [("id", JVal.arr [.int 1])],
          .obj [("id", .int 7), ("name", .str "Agence A")],
          .obj [("id", .int 7), ("name", .str "Agence B")]] = [] :=
  ⟨rfl, rfl, rfl, rfl, rfl, rfl⟩

/-- Claim C2 as amended: among the records `parse_locator` extracts,
provided every record survives the loop — it normalizes without raising
and its dedup key is hashable (`recordSafe`; a truthy non-string name
raises in `re.sub`, an array/object `ref` raises at `key in seen`) —
whenever two records at positions `i < j` share the same truthy normalized
`ref`, the emitted items contain exactly one item with that `ref` — the
normalized item of the first record carrying it (`firstItemWithRef`);
every later record with the same `ref` is skipped. -/
theorem claim_C2_dedup_by_ref (L : List JVal) (r : JVal) (i j : Nat)
    (hi : i < L.length) (hj : j < L.length) (hij : i < j)
    (hok : ∀ v ∈ L, recordSafe v = true) (htr : pyTruthy r = true)
    (hri : recRef (L.get ⟨i, hi⟩) = some r) (hrj : recRef (L.get ⟨j, hj⟩) = some r) :
    (emitItems L).filter (fun it => itemGet it.ref == r) = firstItemWithRef r L
      ∧ (firstItemWithRef r L).length = 1 := by
  constructor
  · exact (emitLoop_filter_ref r htr L [] hok).1 (List.not_mem_nil _)
  · have hsome : (L.find? (fun v => recRef v == some r)).isSome := by
      rw [List.find?_isSome]
      exact ⟨L.get ⟨i, hi⟩, List.get_mem L i hi, by simpa using hri⟩
    rcases hfound : L.find? (fun v => recRef v == some r) with _ | v0
    · rw [hfound] at hsome
      simp at hsome
    · have hp := List.find?_some hfound
      simp at hp
      unfold firstItemWithRef
      rw [hfound]
      rcases v0 with _ | b | n | q | s | xs | raw <;> simp [recRef] at hp ⊢

/-- Witness for C2: two records with the same `id = 7` yield exactly one
emitted item, the first one's. -/
theorem claim_C2_witness :
    (emitItems [.obj [("id", .int 7), ("name", .str "Agence A")],
        .obj [("id", .int 7), ("name", .str "Agence B")]]).filter
        (fun it => itemGet it.ref == .int 7)
      = firstItemWithRef (.int 7)
          [.obj [("id", .int 7), ("name", .str "Agence A")],
           .obj [("id", .int 7), ("name", .str "Agence B")]]
      ∧ (firstItemWithRef (.int 7)
          [.obj [("id", .int 7), ("name", .str "Agence A")],
           .obj [("id", .int 7), ("name", .str "Agence B")]]).length = 1 :=
  claim_C2_dedup_by_ref
    [.obj [("id", .int 7), ("name", .str "Agence A")],
     .obj [("id", .int 7), ("name", .str "Agence B")]]
    (.int 7) 0 1 (by decide) (by decide) (by decide)
    (by decide) (by rfl) (by rfl) (by rfl)

/-- Counterexample to claim C3: two records with no id-like field whose
normalized `(lat, lon, name)` triples differ (different latitudes) are
nevertheless deduplicated, because the `ref` synthesized from their equal
city and branch is truthy and becomes the dedup key before the triple is
ever consulted — the claim says both would be emitted. -/
theorem claim_C3_counterexample :
    (["id", "ref", "code", "slug"].all (fun k => (rawLookup [("name", JVal.str "Agence X"),
        ("ville", JVal.str "C"), ("lat", JVal.str "1,0"), ("lng", JVal.str "2,0")] k).isNone))
        = true
      ∧ (["id", "ref", "code", "slug"].all (fun k => (rawLookup [("name", JVal.str "Agence X"),
        ("ville", JVal.str "C"), ("lat", JVal.str "3,0"), ("lng", JVal.str "2,0")] k).isNone))
        = true
      ∧ tripleKey (normItem [("name", .str "Agence X"), ("ville", .str "C"),
          ("lat", .str "1,0"), ("lng", .str "2,0")])
        ≠ tripleKey (normItem [("name", .str "Agence X"), ("ville", .str "C"),
          ("lat", .str "3,0"), ("lng", .str "2,0")])
      ∧ emitItems [.obj [("name", .str "Agence X"), ("ville", .str "C"),
          ("lat", .str "1,0"), ("lng", .str "2,0")],
          .obj [("name", .str "Agence X"), ("ville", .str "C"),
          ("lat", .str "3,0"), ("lng", .str "2,0")]]
        = [normItem [("name", .str "Agence X"), ("ville", .str "C"),
          ("lat", .str "1,0"), ("lng", .str "2,0")]] := by
  refine ⟨rfl, rfl, ?_, rfl⟩
  decide

/-- Claim C3 as amended: the `(lat, lon, name)` triple only becomes the
dedup key when the record's final `ref` is falsy (for id-less records:
when the synthesized city-branch slug is empty).  For two such records,
identical triples yield one emitted item and differing triples yield both. -/
theorem claim_C3_amended_triple_dedup (r1 r2 : RawDict) (it1 it2 : Item)
    (h1 : dictToItem r1 = .ok it1) (h2 : dictToItem r2 = .ok it2)
    (hid1 : (["id", "ref", "code", "slug"].all
      (fun k => (rawLookup r1 k).isNone)) = true)
    (hid2 : (["id", "ref", "code", "slug"].all
      (fun k => (rawLookup r2 k).isNone)) = true)
    (href1 : pyTruthy (itemGet it1.ref) = false)
    (href2 : pyTruthy (itemGet it2.ref) = false) :
    (tripleKey it1 = tripleKey it2 → emitItems [.obj r1, .obj r2] = [it1])
      ∧ (tripleKey it1 ≠ tripleKey it2 → emitItems [.obj r1, .obj r2] = [it1, it2]) := by
  have hk1 : keyOf it1 = .tripleK (tripleKey it1) := keyOf_of_falsy href1
  have hk2 : keyOf it2 = .tripleK (tripleKey it2) := keyOf_of_falsy href2
  have base : emitItems [.obj r1, .obj r2]
      = it1 :: emitLoop [keyOf it1] [.obj r2] := by
    rw [emitItems, emitLoop_cons_obj [] _ h1 (dictToItem_truthy h1)
        (keyOf_falsy_hashable h1 href1),
      if_neg (List.not_mem_nil _)]
  constructor
  · intro heq
    rw [base, emitLoop_cons_obj [keyOf it1] [] h2 (dictToItem_truthy h2)
        (keyOf_falsy_hashable h2 href2),
      if_pos (by rw [hk1, hk2, heq]; exact List.mem_singleton.mpr rfl)]
    rfl
  · intro hne
    rw [base, emitLoop_cons_obj [keyOf it1] [] h2 (dictToItem_truthy h2)
        (keyOf_falsy_hashable h2 href2),
      if_neg (by
        rw [hk1, hk2]
        intro hc
        exact hne (DedupKey.tripleK.injEq _ _ ▸ (List.mem_singleton.mp hc).symm))]
    rfl

/-- Witness for the amended C3: two id-less records with empty synthesized
slug and different latitudes are both emitted. -/
theorem claim_C3_amended_witness :
    emitItems [.obj [("ville", .str ""), ("name", .str "Saham Bank -"),
        ("lat", .str "1,0"), ("lng", .str "2,0")],
        .obj [("ville", .str ""), ("name", .str "Saham Bank -"),
        ("lat", .str "3,0"), ("lng", .str "2,0")]]
      = [normItem [("ville", .str ""), ("name", .str "Saham Bank -"),
          ("lat", .str "1,0"), ("lng", .str "2,0")],
         normItem [("ville", .str ""), ("name", .str "Saham Bank -"),
          ("lat", .str "3,0"), ("lng", .str "2,0")]] :=
  (claim_C3_amended_triple_dedup
    [("ville", .str ""), ("name", .str "Saham Bank -"),
      ("lat", .str "1,0"), ("lng", .str "2,0")]
    [("ville", .str ""), ("name", .str "Saham Bank -"),
      ("lat", .str "3,0"), ("lng", .str "2,0")]
    (normItem [("ville", .str ""), ("name", .str "Saham Bank -"),
      ("lat", .str "1,0"), ("lng", .str "2,0")])
    (normItem [("ville", .str ""), ("name", .str "Saham Bank -"),
      ("lat", .str "3,0"), ("lng", .str "2,0")])
    (by rfl) (by rfl) (by rfl) (by rfl) (by rfl) (by rfl)).2 (by decide)

theorem filter_flatMap_pick (l : List JVal) :
    (l.filter isLocArray).flatMap elemsOf = l.flatMap pickLoc := by
  induction l with
  | nil => rfl
  | cons x xs ih =>
      by_cases h : isLocArray x
      · rw [List.filter_cons_of_pos h, List.flatMap_cons, List.flatMap_cons, ih]
        simp [pickLoc, h]
      · rw [List.filter_cons_of_neg (by simpa using h), List.flatMap_cons, ih]
        simp [pickLoc, h]

mutual

theorem walk_eq_flatMap : ∀ v : JVal, walk v = (subnodes v).flatMap pickLoc
  | .null => rfl
  | .bool b => rfl
  | .int n => rfl
  | .float q => rfl
  | .str s => rfl
  | .arr xs => by
      rw [walk, subnodes, List.flatMap_cons, walkElems_eq_flatMap xs]
      simp [pickLoc, elemsOf]
  | .obj kvs => by
      rw [walk, subnodes, List.flatMap_cons, walkFields_eq_flatMap kvs]
      rfl

theorem walkElems_eq_flatMap :
    ∀ xs : List JVal, walkElems xs = (subnodesElems xs).flatMap pickLoc
  | [] => rfl
  | x :: xs => by
      rw [walkElems, subnodesElems, List.flatMap_append,
        walk_eq_flatMap x, walkElems_eq_flatMap xs]

theorem walkFields_eq_flatMap :
    ∀ kvs : List (String × JVal), walkFields kvs = (subnodesFields kvs).flatMap pickLoc
  | [] => rfl
  | (k, v) :: kvs => by
      rw [walkFields, subnodesFields, List.flatMap_append,
        walk_eq_flatMap v, walkFields_eq_flatMap kvs]

end

/-- Claim C9: the blob walker returns exactly the concatenation, over
every descendant array (in visiting order) whose first element is a dict
whose lowercased key set contains one of the four key-set templates, of
that array's elements; arrays whose first element matches no template
contribute nothing. -/
theorem claim_C9_blob_walker_collects_matching_arrays (blob : JVal) :
    extractLocationsFromBlob blob = specLocationConcat blob := by
  rw [extractLocationsFromBlob, specLocationConcat, filter_flatMap_pick]
  exact walk_eq_flatMap blob

/-- Claim C6: a regex-captured candidate payload that fails `json.loads`
(after sanitization) is silently dropped — removing it from its script
block's capture list (whether from the SSR-payload captures or the
heuristic array captures) leaves the output of `parse_locator` unchanged,
and the remaining candidates and script blocks are still processed.  The
embedding is total: the `try/except` around the parse is what makes the
Python code raise nothing here. -/
theorem claim_C6_malformed_candidate_skipped (c : String)
    (h : jsonParse (jsonSanitize c) = Option.none) :
    (∀ (s1 s2 : List ScriptCandidates) (pre post arrs : List String),
        parseLocator (s1 ++ ⟨pre ++ c :: post, arrs⟩ :: s2)
          = parseLocator (s1 ++ ⟨pre ++ post, arrs⟩ :: s2))
      ∧ (∀ (s1 s2 : List ScriptCandidates) (ssr pre post : List String),
        parseLocator (s1 ++ ⟨ssr, pre ++ c :: post⟩ :: s2)
          = parseLocator (s1 ++ ⟨ssr, pre ++ post⟩ :: s2)) := by
  have hssr : processCandidateSSR c = [] := by
    unfold processCandidateSSR
    rw [h]
  have harr : processCandidateArr c = [] := by
    unfold processCandidateArr
    rw [h]
  constructor
  · intro s1 s2 pre post arrs
    have hx : parseLocatorExtract (s1 ++ ⟨pre ++ c :: post, arrs⟩ :: s2)
        = parseLocatorExtract (s1 ++ ⟨pre ++ post, arrs⟩ :: s2) := by
      simp [parseLocatorExtract, hssr]
    show emitItems _ = emitItems _
    rw [hx]
  · intro s1 s2 ssr pre post
    have hx : parseLocatorExtract (s1 ++ ⟨ssr, pre ++ c :: post⟩ :: s2)
        = parseLocatorExtract (s1 ++ ⟨ssr, pre ++ post⟩ :: s2) := by
      simp [parseLocatorExtract, harr]
    show emitItems _ = emitItems _
    rw [hx]

/-- Witness for C6: the malformed payload `"{"` is skipped and a script
block that captured only it contributes nothing. -/
theorem claim_C6_witness :
    jsonParse (jsonSanitize "\x7b") = Option.none
      ∧ parseLocator [⟨["\x7b"], []⟩] = parseLocator [⟨[], []⟩] :=
  ⟨by rfl, (claim_C6_malformed_candidate_skipped "\x7b" (by rfl)).1 [] [] [] [] []⟩

end SahamBank
